import Mathlib

/-!
Shallow embedding of the delayed-notifier service (Go) for verifying its
natural-language specification.

Conventions of the embedding:
* `time.Time` and `time.Duration` values are modelled as `Int` nanoseconds
  (Go stores both with nanosecond resolution); milliseconds are obtained by
  division by 1000000 exactly as `Duration.Milliseconds` truncates.
* `uuid.UUID` values are modelled as their canonical `String` form.
* Go `int` counters are modelled as `Int`.
* Fallible calls return `Except`; infrastructure outcomes (network failures
  of the store, cache, broker and transport) are injected through explicit
  boolean oracles, one flag per call site.
-/

namespace DelayedNotifier

/-- Channel of a notification (`internal/domain/model`, `type Channel string`
with the two declared constants). -/
inductive Channel where
  | email
  | telegram
deriving DecidableEq, Repr

/-- Status of a notification (`internal/domain/model`, `type Status string`
with the four declared constants). -/
inductive Status where
  | scheduled
  | sent
  | failed
  | cancelled
deriving DecidableEq, Repr

/-- Recipient details for the email channel (`model.EmailDetails`). -/
structure EmailDetails where
  To : String
deriving DecidableEq, Repr

/-- Recipient details for the telegram channel (`model.TelegramDetails`);
`ChatID` is an `int64`. -/
structure TelegramDetails where
  chatID : Int
deriving DecidableEq, Repr

/-- The core business entity (`model.Notification`). Optional fields are
`Option`; timestamps are `Int` nanoseconds. -/
structure Notification where
  id : String
  subject : String
  message : String
  channel : Channel
  status : Status
  attempts : Int
  authorID : Option String
  email : Option EmailDetails
  telegram : Option TelegramDetails
  scheduledAt : Int
  sentAt : Option Int
  createdAt : Int
  updatedAt : Int
deriving DecidableEq, Repr

/-- A status is terminal when it is one of `sent`, `failed`, `cancelled`. -/
def Status.isTerminal : Status → Bool
  | .scheduled => false
  | .sent => true
  | .failed => true
  | .cancelled => true

/-- Maximum number of send attempts (`maxRetries = 5` in the consumer
package). -/
def maxRetries : Int := 5

/-- The consumer's backoff (`calculateExponentialBackoff`): the Go code
computes `5.0 * math.Pow(2, float64(attempt))` and converts the float to a
`time.Duration` of that many seconds. For every attempt index the worker can
pass (a non-negative count below `maxRetries`) the float arithmetic is exact,
so the result equals `5 * 2 ^ attempt` seconds, expressed here in
nanoseconds. -/
def calculateExponentialBackoff (attempt : Nat) : Int :=
  5 * 2 ^ attempt * 1000000000

section Worker

/-- Errors a store lookup can produce, as distinguished by the worker: it
only tests whether the error is non-nil. -/
inductive StoreErr where
  | notFound
  | infra
deriving DecidableEq, Repr

/-- Broker decision the worker reaches for a delivery
(`msg.Ack(false)`, `msg.Nack(false, true)` and `msg.Nack(false, false)`). -/
inductive Decision where
  | ack
  | nackRequeue
  | nackDrop
deriving DecidableEq, Repr

/-- Outcome oracle for one `handleMessage` run: success of the store re-read,
of `Transport.Send`, of the store `Update`, and of `PublishRetry`. -/
structure Oracle where
  lookupOk : Bool
  sendOk : Bool
  updateOk : Bool
  publishOk : Bool
deriving DecidableEq, Repr

/-- Observable result of one `handleMessage` run. `updateArg` / `retryArg`
record invocations of `UpdateNotification` / `PublishRetry` (argument, and
for the retry also the delay in nanoseconds); `updateApplied` /
`retryPublished` record the effect when that call succeeded. -/
structure HandleResult where
  decision : Decision
  sendCount : Nat
  updateArg : Option Notification
  updateApplied : Option Notification
  retryArg : Option (Notification × Int)
  retryPublished : Option Notification
deriving DecidableEq, Repr

/-- Embedding of `Consumer.handleSendError`: increment the message's
attempts; at `maxRetries` mark failed and update, otherwise republish with
the exponential backoff. The failure branches (`Nack(requeue=true)`) are
taken when the update or the republish fails. -/
def Consumer.handleSendError (o : Oracle) (n : Notification) : HandleResult :=
  let n1 : Notification := { n with attempts := n.attempts + 1 }
  if maxRetries ≤ n1.attempts then
    let nf : Notification := { n1 with status := Status.failed }
    if o.updateOk then
      { decision := .ack, sendCount := 1, updateArg := some nf,
        updateApplied := some nf, retryArg := none, retryPublished := none }
    else
      { decision := .nackRequeue, sendCount := 1, updateArg := some nf,
        updateApplied := none, retryArg := none, retryPublished := none }
  else
    let d := calculateExponentialBackoff n1.attempts.toNat
    if o.publishOk then
      { decision := .ack, sendCount := 1, updateArg := none,
        updateApplied := none, retryArg := some (n1, d),
        retryPublished := some n1 }
    else
      { decision := .nackRequeue, sendCount := 1, updateArg := none,
        updateApplied := none, retryArg := some (n1, d),
        retryPublished := none }

/-- Embedding of `Consumer.handleMessage` after a successful JSON decode:
re-read the record (`latest`); on lookup error or a non-scheduled status,
acknowledge and discard; otherwise attempt the send at time `now` and either
record success (status `sent`, `sentAt = now`) or delegate to
`handleSendError`. -/
def Consumer.handleMessage (o : Oracle) (latest : Except StoreErr Notification)
    (n : Notification) (now : Int) : HandleResult :=
  match latest with
  | .error _ =>
      { decision := .ack, sendCount := 0, updateArg := none,
        updateApplied := none, retryArg := none, retryPublished := none }
  | .ok l =>
      if l.status ≠ Status.scheduled then
        { decision := .ack, sendCount := 0, updateArg := none,
          updateApplied := none, retryArg := none, retryPublished := none }
      else if o.sendOk then
        let ns : Notification := { n with status := Status.sent, sentAt := some now }
        if o.updateOk then
          { decision := .ack, sendCount := 1, updateArg := some ns,
            updateApplied := some ns, retryArg := none, retryPublished := none }
        else
          { decision := .nackRequeue, sendCount := 1, updateArg := some ns,
            updateApplied := none, retryArg := none, retryPublished := none }
      else
        Consumer.handleSendError o n

end Worker

section System

/-- Effect of the store's single-statement update
(`UpdateNotificationStatus` in `query/notification.sql`): only `status`,
`attempts` and `sent_at` of the row are overwritten. -/
def applyStatusUpdate (row n : Notification) : Notification :=
  { row with status := n.status, attempts := n.attempts, sentAt := n.sentAt }

end System

section Json

/-- JSON values as produced by Go's `encoding/json` for the entity types of
this repository. `jtime` stands for the RFC3339 string Go emits for a
`time.Time`, carried here by its nanosecond instant (the Go codec is
injective and self-inverse on the in-range instants the system handles);
`jstr` likewise covers the `uuid.UUID` text form. -/
inductive JValue where
  | null
  | jstr (s : String)
  | jint (n : Int)
  | jtime (t : Int)
  | jobj (fields : List (String × JValue))

/-- String form of a `Channel` (the Go value is the string itself). -/
def Channel.toGoString : Channel → String
  | .email => "email"
  | .telegram => "telegram"

/-- String form of a `Status` (the Go value is the string itself). -/
def Status.toGoString : Status → String
  | .scheduled => "scheduled"
  | .sent => "sent"
  | .failed => "failed"
  | .cancelled => "cancelled"

/-- Go encoding of a `*string`: `null` for nil. -/
def encodeOptStr : Option String → JValue
  | none => .null
  | some s => .jstr s

/-- Go encoding of a `*time.Time`: `null` for nil. -/
def encodeOptTime : Option Int → JValue
  | none => .null
  | some t => .jtime t

/-- Go encoding of a `*EmailDetails`: `null` for nil, otherwise an object
with the exported field `To`. -/
def encodeEmailDetails : Option EmailDetails → JValue
  | none => .null
  | some e => .jobj [("To", .jstr e.To)]

/-- Go encoding of a `*TelegramDetails`: `null` for nil, otherwise an object
with the exported field `ChatID`. -/
def encodeTelegramDetails : Option TelegramDetails → JValue
  | none => .null
  | some t => .jobj [("ChatID", .jint t.chatID)]

/-- Go `json.Marshal` of a `model.Notification`: the struct carries no JSON
tags, so every exported field is emitted under its own name. -/
def encodeNotification (n : Notification) : JValue :=
  .jobj [("ID", .jstr n.id),
         ("Subject", .jstr n.subject),
         ("Message", .jstr n.message),
         ("Channel", .jstr n.channel.toGoString),
         ("Status", .jstr n.status.toGoString),
         ("Attempts", .jint n.attempts),
         ("AuthorID", encodeOptStr n.authorID),
         ("Email", encodeEmailDetails n.email),
         ("Telegram", encodeTelegramDetails n.telegram),
         ("ScheduledAt", .jtime n.scheduledAt),
         ("SentAt", encodeOptTime n.sentAt),
         ("CreatedAt", .jtime n.createdAt),
         ("UpdatedAt", .jtime n.updatedAt)]

/-- Field lookup in a decoded JSON object. -/
def lookupField (key : String) : List (String × JValue) → Option JValue
  | [] => none
  | (k, v) :: rest => if k = key then some v else lookupField key rest

/-- Decoding of a JSON value into a `String` field. -/
def decodeStr : JValue → Option String
  | .jstr s => some s
  | _ => none

/-- Decoding of a JSON value into an integer field. -/
def decodeInt : JValue → Option Int
  | .jint n => some n
  | _ => none

/-- Decoding of a JSON value into a `time.Time` field. -/
def decodeTime : JValue → Option Int
  | .jtime t => some t
  | _ => none

/-- Decoding of a channel string into the enum. -/
def decodeChannel (s : String) : Option Channel :=
  if s = "email" then some .email
  else if s = "telegram" then some .telegram
  else none

/-- Decoding of a status string into the enum. -/
def decodeStatus (s : String) : Option Status :=
  if s = "scheduled" then some .scheduled
  else if s = "sent" then some .sent
  else if s = "failed" then some .failed
  else if s = "cancelled" then some .cancelled
  else none

/-- Decoding of an optional string field. -/
def decodeOptStr : JValue → Option (Option String)
  | .null => some none
  | .jstr s => some (some s)
  | _ => none

/-- Decoding of an optional time field. -/
def decodeOptTime : JValue → Option (Option Int)
  | .null => some none
  | .jtime t => some (some t)
  | _ => none

/-- Decoding of an optional `EmailDetails` value. -/
def decodeEmailDetails : JValue → Option (Option EmailDetails)
  | .null => some none
  | .jobj fs =>
      match (lookupField "To" fs).bind decodeStr with
      | some s => some (some ⟨s⟩)
      | none => none
  | _ => none

/-- Decoding of an optional `TelegramDetails` value. -/
def decodeTelegramDetails : JValue → Option (Option TelegramDetails)
  | .null => some none
  | .jobj fs =>
      match (lookupField "ChatID" fs).bind decodeInt with
      | some c => some (some ⟨c⟩)
      | none => none
  | _ => none

/-- Go `json.Unmarshal` of a `model.Notification`, restricted to the shapes
`encodeNotification` emits: every field is read back from the object under
its exported name. -/
def decodeNotification (j : JValue) : Option Notification :=
  match j with
  | .jobj fs => do
      let id ← (lookupField "ID" fs).bind decodeStr
      let subject ← (lookupField "Subject" fs).bind decodeStr
      let message ← (lookupField "Message" fs).bind decodeStr
      let channel ← ((lookupField "Channel" fs).bind decodeStr).bind decodeChannel
      let status ← ((lookupField "Status" fs).bind decodeStr).bind decodeStatus
      let attempts ← (lookupField "Attempts" fs).bind decodeInt
      let authorID ← (lookupField "AuthorID" fs).bind decodeOptStr
      let email ← (lookupField "Email" fs).bind decodeEmailDetails
      let telegram ← (lookupField "Telegram" fs).bind decodeTelegramDetails
      let scheduledAt ← (lookupField "ScheduledAt" fs).bind decodeTime
      let sentAt ← (lookupField "SentAt" fs).bind decodeOptTime
      let createdAt ← (lookupField "CreatedAt" fs).bind decodeTime
      let updatedAt ← (lookupField "UpdatedAt" fs).bind decodeTime
      some { id := id, subject := subject, message := message,
             channel := channel, status := status, attempts := attempts,
             authorID := authorID, email := email, telegram := telegram,
             scheduledAt := scheduledAt, sentAt := sentAt,
             createdAt := createdAt, updatedAt := updatedAt }
  | _ => none

end Json

section Broker

/-- Exchange names of the broker topology (`internal/storage/rabbitmq`). -/
def WaitExchange : String := "wait.exchange"

/-- Retry exchange name of the broker topology. -/
def RetryExchange : String := "retry.exchange"

/-- An AMQP publishing as assembled by the publisher: target exchange plus
the fields of `amqp.Publishing` the code sets. -/
structure AmqpMessage where
  exchange : String
  contentType : String
  body : JValue
  persistent : Bool
  expiration : String

/-- Embedding of `RabbitMQQueue.Publish`: clamp `time.Until(scheduledAt)` at
zero, and publish the JSON body to the wait exchange, persistent, with the
delay's millisecond count as the string-encoded expiration. -/
def RabbitMQQueue.Publish (now : Int) (n : Notification) : AmqpMessage :=
  let delay := n.scheduledAt - now
  let delay := if delay < 0 then 0 else delay
  { exchange := WaitExchange
    contentType := "application/json"
    body := encodeNotification n
    persistent := true
    expiration := toString (delay / 1000000) }

/-- Embedding of `RabbitMQQueue.PublishRetry`: publish the JSON body to the
retry exchange with the given delay (nanoseconds) as its millisecond
expiration. -/
def RabbitMQQueue.PublishRetry (n : Notification) (retryDelay : Int) : AmqpMessage :=
  { exchange := RetryExchange
    contentType := "application/json"
    body := encodeNotification n
    persistent := true
    expiration := toString (retryDelay / 1000000) }

end Broker

section Repos

/-- Repository error taxonomy: the two sentinel errors of
`internal/domain/repository` plus an opaque infrastructure error. -/
inductive RepoErr where
  | notFound
  | duplicateRecord
  | infra
deriving DecidableEq, Repr

/-- Pointwise update of a string-keyed map. -/
def mapSet (f : String → Option Notification) (k : String)
    (v : Option Notification) : String → Option Notification :=
  fun k' => if k' = k then v else f k'

/-- Cache key of a notification (`pkg/keybuilder.RedisNotificationKeyBuild`):
`redis:notification:<id>`. -/
def RedisNotificationKeyBuild (id : String) : String :=
  "redis:notification:" ++ id

/-- State of the Redis cache: the stored entry per key (values round-trip
through JSON; the codec is the identity, so entries are kept as values). -/
structure CacheSt where
  entries : String → Option Notification

/-- Infrastructure oracle for one batch of cache calls. -/
structure CacheOracle where
  getOk : Bool
  setOk : Bool
  delOk : Bool
deriving DecidableEq, Repr

/-- Embedding of `NotificationCache.Get`: an infrastructure failure is
surfaced, `redis.Nil` becomes `ErrNotFound`, otherwise the entry is
decoded and returned. -/
def NotificationCache.Get (o : CacheOracle) (c : CacheSt) (id : String) :
    Except RepoErr Notification :=
  if o.getOk then
    match c.entries (RedisNotificationKeyBuild id) with
    | none => .error .notFound
    | some n => .ok n
  else .error .infra

/-- Embedding of `NotificationCache.Set`: store the encoded value under the
notification's key; a failed call leaves the cache unchanged. -/
def NotificationCache.Set (o : CacheOracle) (c : CacheSt) (n : Notification) :
    Except RepoErr Unit × CacheSt :=
  if o.setOk then
    (.ok (), ⟨mapSet c.entries (RedisNotificationKeyBuild n.id) (some n)⟩)
  else (.error .infra, c)

/-- Embedding of `NotificationCache.Delete`: remove the key; a failed call
leaves the cache unchanged. -/
def NotificationCache.Delete (o : CacheOracle) (c : CacheSt) (id : String) :
    Except RepoErr Unit × CacheSt :=
  if o.delOk then
    (.ok (), ⟨mapSet c.entries (RedisNotificationKeyBuild id) none⟩)
  else (.error .infra, c)

/-- State of the primary (Postgres) store: one row per id. -/
structure StoreSt where
  rows : String → Option Notification

/-- Infrastructure oracle for one batch of primary-store calls. -/
structure StoreOracle where
  saveOk : Bool
  getOk : Bool
  updateOk : Bool
  cancelOk : Bool
deriving DecidableEq, Repr

/-- Embedding of the Postgres `Save`: unique violation on an existing id
becomes `ErrDuplicateRecord`; otherwise the row is inserted and returned. -/
def PostgresRepository.Save (o : StoreOracle) (s : StoreSt) (n : Notification) :
    Except RepoErr Notification × StoreSt :=
  if o.saveOk then
    match s.rows n.id with
    | some _ => (.error .duplicateRecord, s)
    | none => (.ok n, ⟨mapSet s.rows n.id (some n)⟩)
  else (.error .infra, s)

/-- Embedding of the Postgres `GetByID`: `pgx.ErrNoRows` becomes
`ErrNotFound`. -/
def PostgresRepository.GetByID (o : StoreOracle) (s : StoreSt) (id : String) :
    Except RepoErr Notification :=
  if o.getOk then
    match s.rows id with
    | none => .error .notFound
    | some n => .ok n
  else .error .infra

/-- Embedding of the Postgres `Update` (`UpdateNotificationStatus`): the
single statement overwrites `status`, `attempts` and `sent_at` of the row;
no row means `ErrNotFound`. -/
def PostgresRepository.Update (o : StoreOracle) (s : StoreSt) (n : Notification) :
    Except RepoErr Unit × StoreSt :=
  if o.updateOk then
    match s.rows n.id with
    | none => (.error .notFound, s)
    | some row => (.ok (), ⟨mapSet s.rows n.id (some (applyStatusUpdate row n))⟩)
  else (.error .infra, s)

/-- Embedding of the Postgres `Delete` (`CancelNotification` query): the
soft delete sets `status = 'cancelled'` unconditionally on the row; no row
means `ErrNotFound`. -/
def PostgresRepository.Delete (o : StoreOracle) (s : StoreSt) (id : String) :
    Except RepoErr Unit × StoreSt :=
  if o.cancelOk then
    match s.rows id with
    | none => (.error .notFound, s)
    | some row => (.ok (), ⟨mapSet s.rows id (some { row with status := Status.cancelled })⟩)
  else (.error .infra, s)

/-- Combined state of the cached repository decorator: primary store plus
cache. -/
structure RepoCtx where
  store : StoreSt
  cache : CacheSt

/-- Embedding of `CachedNotificationRepository.Save`: primary save first; on
success a best-effort cache `Set` whose error is only logged. -/
def CachedNotificationRepository.Save (so : StoreOracle) (co : CacheOracle)
    (ctx : RepoCtx) (n : Notification) : Except RepoErr Notification × RepoCtx :=
  match PostgresRepository.Save so ctx.store n with
  | (.error e, s') => (.error e, ⟨s', ctx.cache⟩)
  | (.ok created, s') =>
      let (_, c') := NotificationCache.Set co ctx.cache created
      (.ok created, ⟨s', c'⟩)

/-- Embedding of `CachedNotificationRepository.GetByID` (cache-aside): a
cache hit is returned; on miss or any cache error the primary store is
consulted, and its result is cached best-effort. -/
def CachedNotificationRepository.GetByID (so : StoreOracle) (co : CacheOracle)
    (ctx : RepoCtx) (id : String) : Except RepoErr Notification × RepoCtx :=
  match NotificationCache.Get co ctx.cache id with
  | .ok n => (.ok n, ctx)
  | .error _ =>
      match PostgresRepository.GetByID so ctx.store id with
      | .error e => (.error e, ctx)
      | .ok primary =>
          let (_, c') := NotificationCache.Set co ctx.cache primary
          (.ok primary, ⟨ctx.store, c'⟩)

/-- Embedding of `CachedNotificationRepository.Update`: primary update
first; on success a best-effort cache `Delete` whose error is only
logged. -/
def CachedNotificationRepository.Update (so : StoreOracle) (co : CacheOracle)
    (ctx : RepoCtx) (n : Notification) : Except RepoErr Unit × RepoCtx :=
  match PostgresRepository.Update so ctx.store n with
  | (.error e, s') => (.error e, ⟨s', ctx.cache⟩)
  | (.ok _, s') =>
      let (_, c') := NotificationCache.Delete co ctx.cache n.id
      (.ok (), ⟨s', c'⟩)

/-- Embedding of `CachedNotificationRepository.Delete` (the cancel path):
primary soft delete first; on success a best-effort cache `Delete`. -/
def CachedNotificationRepository.Delete (so : StoreOracle) (co : CacheOracle)
    (ctx : RepoCtx) (id : String) : Except RepoErr Unit × RepoCtx :=
  match PostgresRepository.Delete so ctx.store id with
  | (.error e, s') => (.error e, ⟨s', ctx.cache⟩)
  | (.ok _, s') =>
      let (_, c') := NotificationCache.Delete co ctx.cache id
      (.ok (), ⟨s', c'⟩)

end Repos

section ServiceAndHandler

/-- Errors the service's cancel can return: a repository error passed
through unchanged, or the untyped `cannot cancel notification with status`
error. -/
inductive SvcErr where
  | repo (e : RepoErr)
  | invalidState
deriving DecidableEq, Repr

/-- Embedding of `NotificationService.CancelNotification`: read the current
record through the cached repository; a read error is passed through; a
non-scheduled status fails with the invalid-state error; otherwise the
repository's cancel runs. -/
def NotificationService.CancelNotification (so : StoreOracle) (co : CacheOracle)
    (ctx : RepoCtx) (id : String) : Except SvcErr Unit × RepoCtx :=
  match CachedNotificationRepository.GetByID so co ctx id with
  | (.error e, ctx') => (.error (.repo e), ctx')
  | (.ok n, ctx') =>
      if n.status ≠ Status.scheduled then (.error .invalidState, ctx')
      else
        match CachedNotificationRepository.Delete so co ctx' id with
        | (.error e, ctx'') => (.error (.repo e), ctx'')
        | (.ok _, ctx'') => (.ok (), ctx'')

/-- Embedding of the HTTP DELETE handler (`Handlers.CancelNotification`):
400 for an unparsable id, 204 on success, 404 when `errors.Is(err,
ErrNotFound)`, and 500 for every other error. -/
def Handlers.CancelNotificationStatus (idValid : Bool)
    (res : Except SvcErr Unit) : Nat :=
  if idValid then
    match res with
    | .ok _ => 204
    | .error (.repo RepoErr.notFound) => 404
    | .error _ => 500
  else 400

end ServiceAndHandler

section Dispatch

/-- Configuration slice the dispatcher constructor reads
(`cfg.Notifiers`). -/
structure NotifiersModeConfig where
  mode : String
  emailHost : String
  telegramBotToken : String
deriving DecidableEq, Repr

/-- Which concrete notifier implementation a channel is mapped to. -/
inductive NotifierKind where
  | log
  | email
  | telegram
deriving DecidableEq, Repr

/-- Per-channel update of the dispatcher's notifier table. -/
def tableSet (f : Channel → Option NotifierKind) (c : Channel)
    (v : Option NotifierKind) : Channel → Option NotifierKind :=
  fun c' => if c' = c then v else f c'

/-- Embedding of `NewDispatcher`: the log notifier is installed for both
channels first; in `production` mode a non-empty SMTP host overrides the
email entry and a non-empty bot token overrides the telegram entry, where
the telegram construction may fail (`tgInitOk`), failing the whole
constructor. -/
def NewDispatcher (cfg : NotifiersModeConfig) (tgInitOk : Bool) :
    Except String (Channel → Option NotifierKind) :=
  let base : Channel → Option NotifierKind := fun _ => some .log
  let m1 :=
    if cfg.mode = "production" ∧ cfg.emailHost ≠ "" then
      tableSet base .email (some .email)
    else base
  if cfg.mode = "production" ∧ cfg.telegramBotToken ≠ "" then
    if tgInitOk then .ok (tableSet m1 .telegram (some .telegram))
    else .error "failed to initialize telegram notifier"
  else .ok m1

/-- Result of `Dispatcher.Send`: delegation to the mapped notifier, or the
`notifier for channel not found` error branch. -/
inductive DispatchResult where
  | delegated (k : NotifierKind)
  | channelNotFound
deriving DecidableEq, Repr

/-- Embedding of `Dispatcher.Send`: look the channel up in the table and
delegate; a missing entry is the fatal per-message error. -/
def Dispatcher.Send (d : Channel → Option NotifierKind) (n : Notification) :
    DispatchResult :=
  match d n.channel with
  | none => .channelNotFound
  | some k => .delegated k

end Dispatch

section Samples

/-- Concrete scheduled email notification used by the witnesses. -/
def sampleNotification : Notification :=
  { id := "7b8d9e60-1111-4a2b-8c3d-5e6f7a8b9c0d"
    subject := "hello"
    message := "body"
    channel := .email
    status := Status.scheduled
    attempts := 0
    authorID := none
    email := some ⟨"a@b.co"⟩
    telegram := none
    scheduledAt := 2000000000
    sentAt := none
    createdAt := 1000000000
    updatedAt := 1000000000 }

/-- The same notification in the terminal `sent` state. -/
def sampleSent : Notification :=
  { sampleNotification with status := Status.sent, sentAt := some 2000000000 }

/-- All-success oracle for the worker. -/
def oracleOk : Oracle := ⟨true, true, true, true⟩

/-- All-success oracle for the primary store. -/
def storeOracleOk : StoreOracle := ⟨true, true, true, true⟩

/-- All-success oracle for the cache. -/
def cacheOracleOk : CacheOracle := ⟨true, true, true⟩

/-- Cache oracle whose every call fails. -/
def cacheOracleDown : CacheOracle := ⟨false, false, false⟩

/-- Cache oracle where only the invalidating `Delete` fails. -/
def cacheOracleDelFail : CacheOracle := ⟨true, true, false⟩

/-- Store/cache pair holding the sample row in the store and a warmed cache
entry for it. -/
def ctxWarm : RepoCtx :=
  ⟨⟨mapSet (fun _ => none) sampleNotification.id (some sampleNotification)⟩,
   ⟨mapSet (fun _ => none) (RedisNotificationKeyBuild sampleNotification.id)
      (some sampleNotification)⟩⟩

/-- Store/cache pair holding the already-sent sample row and a cold cache. -/
def ctxSentRow : RepoCtx :=
  ⟨⟨mapSet (fun _ => none) sampleSent.id (some sampleSent)⟩, ⟨fun _ => none⟩⟩

end Samples

/-- C3: if the worker's re-read of the record fails for any reason, or the
returned status is not `scheduled`, `handleMessage` acknowledges and
discards the message: no `Transport.Send`, no store `Update` and no retry
publish happen for it. -/
theorem revalidation_discard (o : Oracle) (latest : Except StoreErr Notification)
    (m : Notification) (now : Int)
    (h : (∃ e, latest = .error e) ∨ ∃ l, latest = .ok l ∧ l.status ≠ Status.scheduled) :
    Consumer.handleMessage o latest m now =
      { decision := .ack, sendCount := 0, updateArg := none,
        updateApplied := none, retryArg := none, retryPublished := none } := by
  rcases h with ⟨e, rfl⟩ | ⟨l, rfl, hs⟩
  · rfl
  · simp [Consumer.handleMessage, hs]

/-- Witness for C3 at a concrete failed lookup. -/
theorem revalidation_discard_witness :
    Consumer.handleMessage oracleOk (Except.error StoreErr.notFound)
        sampleNotification 0 =
      { decision := .ack, sendCount := 0, updateArg := none,
        updateApplied := none, retryArg := none, retryPublished := none } :=
  revalidation_discard oracleOk (Except.error StoreErr.notFound)
    sampleNotification 0 (Or.inl ⟨StoreErr.notFound, rfl⟩)

/-- C4: on a failed send whose post-increment attempts counter
`k = attempts + 1` lies in `{1..4}`, the worker passes exactly
`5 * 2 ^ k` seconds to `PublishRetry` — one of 10 s, 20 s, 40 s, 80 s —
and never a 5 s delay. -/
theorem backoff_law (o : Oracle) (l m : Notification) (now : Int)
    (hl : l.status = Status.scheduled) (hs : o.sendOk = false)
    (h0 : 0 ≤ m.attempts) (h4 : m.attempts + 1 < maxRetries) :
    (Consumer.handleMessage o (.ok l) m now).retryArg =
      some ({ m with attempts := m.attempts + 1 },
        5 * 2 ^ (m.attempts + 1).toNat * 1000000000) ∧
    ∀ p d, (Consumer.handleMessage o (.ok l) m now).retryArg = some (p, d) →
      (d = 10000000000 ∨ d = 20000000000 ∨ d = 40000000000 ∨ d = 80000000000) ∧
      d ≠ 5000000000 := by
  have harg : (Consumer.handleMessage o (.ok l) m now).retryArg =
      some ({ m with attempts := m.attempts + 1 },
        5 * 2 ^ (m.attempts + 1).toNat * 1000000000) := by
    have hnot : ¬ maxRetries ≤ m.attempts + 1 := not_le.mpr h4
    cases hpub : o.publishOk <;>
      simp [Consumer.handleMessage, Consumer.handleSendError, hl, hs, hpub, hnot,
        calculateExponentialBackoff]
  refine ⟨harg, ?_⟩
  intro p d hd
  rw [harg] at hd
  obtain ⟨-, hdval⟩ : p = _ ∧ d = 5 * 2 ^ (m.attempts + 1).toNat * 1000000000 := by
    simpa [Prod.ext_iff] using hd.symm
  subst hdval
  have hrange : (m.attempts + 1).toNat = 1 ∨ (m.attempts + 1).toNat = 2 ∨
      (m.attempts + 1).toNat = 3 ∨ (m.attempts + 1).toNat = 4 := by
    have h5 : m.attempts + 1 < 5 := h4
    omega
  rcases hrange with h | h | h | h <;> rw [h] <;> norm_num

/-- Witness for C4 at a concrete first failure (`attempts` becomes 1). -/
theorem backoff_law_witness :
    (Consumer.handleMessage ⟨true, false, true, true⟩ (.ok sampleNotification)
        sampleNotification 0).retryArg =
      some ({ sampleNotification with attempts := 1 }, 10000000000) := by
  have h := backoff_law ⟨true, false, true, true⟩ sampleNotification
    sampleNotification 0 rfl rfl (by norm_num [sampleNotification])
    (by norm_num [sampleNotification, maxRetries])
  rw [h.1]
  norm_num [sampleNotification]

/-- C5: `Publish` computes the delay as `max 0 (scheduledAt - now)`, never
negative, and publishes the JSON-encoded notification to `wait.exchange`
with that delay in milliseconds as the string-encoded expiration,
persistent delivery mode and `application/json` content type. -/
theorem publish_delay_spec (now : Int) (n : Notification) :
    RabbitMQQueue.Publish now n =
      { exchange := "wait.exchange"
        contentType := "application/json"
        body := encodeNotification n
        persistent := true
        expiration := toString (max 0 (n.scheduledAt - now) / 1000000) } ∧
    0 ≤ max 0 (n.scheduledAt - now) / 1000000 := by
  have hmax : (if n.scheduledAt - now < 0 then 0 else n.scheduledAt - now) =
      max 0 (n.scheduledAt - now) := by
    rcases le_or_lt 0 (n.scheduledAt - now) with h | h
    · rw [if_neg (not_lt.mpr h), max_eq_right h]
    · rw [if_pos h, max_eq_left h.le]
  constructor
  · simp only [RabbitMQQueue.Publish, WaitExchange]
    rw [hmax]
  · exact Int.ediv_nonneg (le_max_left 0 _) (by norm_num)

/-- C6: the cached store never surfaces a cache failure — `Save`, `Update`
and `Delete` (the cancel path) succeed whenever the primary store call
succeeds, for every cache oracle, and `GetByID` returns the primary store's
result whenever the cache `Get` misses or fails. -/
theorem cache_failures_not_surfaced (so : StoreOracle) (co : CacheOracle)
    (ctx : RepoCtx) (n : Notification) (id : String) :
    (∀ created s', PostgresRepository.Save so ctx.store n = (.ok created, s') →
        (CachedNotificationRepository.Save so co ctx n).1 = .ok created) ∧
    (∀ s', PostgresRepository.Update so ctx.store n = (.ok (), s') →
        (CachedNotificationRepository.Update so co ctx n).1 = .ok ()) ∧
    (∀ s', PostgresRepository.Delete so ctx.store id = (.ok (), s') →
        (CachedNotificationRepository.Delete so co ctx id).1 = .ok ()) ∧
    (∀ e, NotificationCache.Get co ctx.cache id = .error e →
        (CachedNotificationRepository.GetByID so co ctx id).1 =
          PostgresRepository.GetByID so ctx.store id) := by
  refine ⟨?_, ?_, ?_, ?_⟩
  · intro created s' h
    simp [CachedNotificationRepository.Save, h]
  · intro s' h
    simp [CachedNotificationRepository.Update, h]
  · intro s' h
    simp [CachedNotificationRepository.Delete, h]
  · intro e h
    unfold CachedNotificationRepository.GetByID
    rw [h]
    cases hp : PostgresRepository.GetByID so ctx.store id <;> simp

/-- Witness for C6: the primary accepts every write while every cache call
fails, and a failed cache read falls through to the primary. -/
theorem cache_failures_not_surfaced_witness :
    (CachedNotificationRepository.Update storeOracleOk cacheOracleDown ctxWarm
        sampleSent).1 = .ok () ∧
    (CachedNotificationRepository.Delete storeOracleOk cacheOracleDown ctxWarm
        sampleNotification.id).1 = .ok () ∧
    (CachedNotificationRepository.GetByID storeOracleOk cacheOracleDown ctxWarm
        sampleNotification.id).1 = .ok sampleNotification := by
  have h := cache_failures_not_surfaced storeOracleOk cacheOracleDown ctxWarm
    sampleSent sampleNotification.id
  have h2 := cache_failures_not_surfaced storeOracleOk cacheOracleDown ctxWarm
    sampleNotification sampleNotification.id
  refine ⟨h.2.1 _ rfl, h.2.2.1 _ rfl, ?_⟩
  rw [h2.2.2.2 RepoErr.infra rfl]
  rfl

/-- C7 counterexample: a successful `Update` through the cached store whose
best-effort cache invalidation failed leaves the old entry in the cache, so
the next cache `Get` is a hit on the stale value, not a `NotFound` miss. -/
theorem cache_coherence_counterexample :
    (CachedNotificationRepository.Update storeOracleOk cacheOracleDelFail ctxWarm
        sampleSent).1 = Except.ok () ∧
    NotificationCache.Get cacheOracleOk
        (CachedNotificationRepository.Update storeOracleOk cacheOracleDelFail
          ctxWarm sampleSent).2.cache sampleSent.id =
      Except.ok sampleNotification ∧
    (Except.ok sampleNotification : Except RepoErr Notification) ≠
      Except.error RepoErr.notFound := by
  refine ⟨rfl, rfl, by simp⟩

/-- C7 amended: after a successful `Update` or `Delete` (cancel) through the
cached store in which the best-effort cache invalidation also succeeded, the
next cache `Get` for that id is a miss returning `NotFound`. -/
theorem cache_coherence_on_successful_invalidation (so : StoreOracle)
    (co : CacheOracle) (ctx : RepoCtx) (n : Notification) (id : String)
    (og : CacheOracle) (hdel : co.delOk = true) (hget : og.getOk = true) :
    ((CachedNotificationRepository.Update so co ctx n).1 = .ok () →
      NotificationCache.Get og
          (CachedNotificationRepository.Update so co ctx n).2.cache n.id =
        .error .notFound) ∧
    ((CachedNotificationRepository.Delete so co ctx id).1 = .ok () →
      NotificationCache.Get og
          (CachedNotificationRepository.Delete so co ctx id).2.cache id =
        .error .notFound) := by
  constructor
  · intro hok
    unfold CachedNotificationRepository.Update at hok ⊢
    cases hp : PostgresRepository.Update so ctx.store n with
    | mk res s' =>
        cases res with
        | error e => rw [hp] at hok; simp at hok
        | ok u =>
            simp [NotificationCache.Delete, NotificationCache.Get, hdel, hget, mapSet]
  · intro hok
    unfold CachedNotificationRepository.Delete at hok ⊢
    cases hp : PostgresRepository.Delete so ctx.store id with
    | mk res s' =>
        cases res with
        | error e => rw [hp] at hok; simp at hok
        | ok u =>
            simp [NotificationCache.Delete, NotificationCache.Get, hdel, hget, mapSet]

/-- Witness for C7 amended: with a healthy cache the invalidation makes the
next cache read a miss. -/
theorem cache_coherence_on_successful_invalidation_witness :
    cacheOracleOk.delOk = true ∧
    (CachedNotificationRepository.Update storeOracleOk cacheOracleOk ctxWarm
        sampleSent).1 = .ok () ∧
    NotificationCache.Get cacheOracleOk
        (CachedNotificationRepository.Update storeOracleOk cacheOracleOk ctxWarm
          sampleSent).2.cache sampleSent.id = .error .notFound := by
  refine ⟨rfl, rfl, ?_⟩
  exact (cache_coherence_on_successful_invalidation storeOracleOk cacheOracleOk
    ctxWarm sampleSent sampleSent.id cacheOracleOk rfl rfl).1 rfl

/-- The cache-aside read never writes to the primary store. -/
lemma getByID_preserves_store (so : StoreOracle) (co : CacheOracle)
    (ctx : RepoCtx) (id : String) :
    (CachedNotificationRepository.GetByID so co ctx id).2.store = ctx.store := by
  unfold CachedNotificationRepository.GetByID
  cases NotificationCache.Get co ctx.cache id with
  | ok n => rfl
  | error e =>
      cases PostgresRepository.GetByID so ctx.store id with
      | ok n => rfl
      | error e' => rfl

/-- C8 counterexample: cancelling a notification whose status is `sent`
fails with the invalid-state error, but the HTTP DELETE handler maps it to
status 500, not the 409 the claim states. -/
theorem cancel_http_counterexample :
    (NotificationService.CancelNotification storeOracleOk cacheOracleOk
        ctxSentRow sampleSent.id).1 = Except.error SvcErr.invalidState ∧
    Handlers.CancelNotificationStatus true
        (NotificationService.CancelNotification storeOracleOk cacheOracleOk
          ctxSentRow sampleSent.id).1 = 500 ∧
    (500 : Nat) ≠ 409 := by
  refine ⟨rfl, rfl, by norm_num⟩

/-- C8 amended: `CancelNotification` reads the current record and fails with
the invalid-state error exactly when the status is not `scheduled`, leaving
the store unchanged, and the HTTP DELETE handler maps that failure to 500
(the handler recognizes only `ErrNotFound`); when the status is `scheduled`
and the cancel succeeds the row is soft-deleted to `cancelled` and the
handler returns 204. -/
theorem cancel_precondition_http (so : StoreOracle) (co : CacheOracle)
    (ctx : RepoCtx) (id : String) (n : Notification) (ctx' : RepoCtx)
    (hget : CachedNotificationRepository.GetByID so co ctx id = (.ok n, ctx')) :
    (n.status ≠ Status.scheduled →
      NotificationService.CancelNotification so co ctx id =
        (.error .invalidState, ctx') ∧
      ctx'.store = ctx.store ∧
      Handlers.CancelNotificationStatus true
        (NotificationService.CancelNotification so co ctx id).1 = 500) ∧
    (n.status = Status.scheduled →
      ∀ ctx'', NotificationService.CancelNotification so co ctx id =
          (.ok (), ctx'') →
        Handlers.CancelNotificationStatus true
          (NotificationService.CancelNotification so co ctx id).1 = 204 ∧
        ∃ row, ctx.store.rows id = some row ∧
          ctx''.store.rows id = some { row with status := Status.cancelled }) := by
  constructor
  · intro hns
    have hsvc : NotificationService.CancelNotification so co ctx id =
        (.error .invalidState, ctx') := by
      unfold NotificationService.CancelNotification
      rw [hget]
      simp [hns]
    refine ⟨hsvc, ?_, by rw [hsvc]; rfl⟩
    have := getByID_preserves_store so co ctx id
    rw [hget] at this
    exact this
  · intro hsched ctx'' hok
    have hstore' : ctx'.store = ctx.store := by
      have := getByID_preserves_store so co ctx id
      rw [hget] at this
      exact this
    refine ⟨by rw [hok]; rfl, ?_⟩
    unfold NotificationService.CancelNotification at hok
    rw [hget] at hok
    simp only [hsched, ne_eq, not_true_eq_false, if_false, ite_false] at hok
    unfold CachedNotificationRepository.Delete at hok
    by_cases hc : so.cancelOk
    · cases hrow : ctx'.store.rows id with
      | none =>
          rw [show PostgresRepository.Delete so ctx'.store id =
                (.error .notFound, ctx'.store) from by
              unfold PostgresRepository.Delete
              rw [if_pos hc, hrow]] at hok
          simp at hok
      | some row =>
          rw [show PostgresRepository.Delete so ctx'.store id =
                (.ok (), ⟨mapSet ctx'.store.rows id
                  (some { row with status := Status.cancelled })⟩) from by
              unfold PostgresRepository.Delete
              rw [if_pos hc, hrow]] at hok
          simp only [Prod.mk.injEq] at hok
          refine ⟨row, by rw [← hstore', hrow], ?_⟩
          rw [← hok.2]
          simp [mapSet]
    · rw [show PostgresRepository.Delete so ctx'.store id =
            (.error .infra, ctx'.store) from by
          unfold PostgresRepository.Delete
          rw [if_neg hc]] at hok
      simp at hok

/-- Witness for C8 amended, exercising both branches: the invalid-state
refusal with its 500 mapping at a `sent` row, and the 204 success path with
the soft delete at a `scheduled` row. -/
theorem cancel_precondition_http_witness :
    (NotificationService.CancelNotification storeOracleOk cacheOracleOk
        ctxSentRow sampleSent.id).1 = .error .invalidState ∧
    Handlers.CancelNotificationStatus true
        (NotificationService.CancelNotification storeOracleOk cacheOracleOk
          ctxSentRow sampleSent.id).1 = 500 ∧
    Handlers.CancelNotificationStatus true
        (NotificationService.CancelNotification storeOracleOk cacheOracleOk
          ctxWarm sampleNotification.id).1 = 204 := by
  have h1 := cancel_precondition_http storeOracleOk cacheOracleOk ctxSentRow
    sampleSent.id sampleSent _ rfl
  have h2 := cancel_precondition_http storeOracleOk cacheOracleOk ctxWarm
    sampleNotification.id sampleNotification _ rfl
  obtain ⟨hsvc, -, h500⟩ := h1.1 (by simp [sampleSent])
  refine ⟨by rw [hsvc], h500, ?_⟩
  exact (h2.2 rfl _ rfl).1

/-- C9: JSON encoding followed by decoding is the identity on every
`Notification` value, including absent optional fields and both recipient
variants. -/
theorem notification_json_roundtrip (n : Notification) :
    decodeNotification (encodeNotification n) = some n := by
  obtain ⟨id, subject, message, channel, status, attempts, authorID, email,
    telegram, scheduledAt, sentAt, createdAt, updatedAt⟩ := n
  cases channel <;> cases status <;> cases authorID <;> cases email <;>
    cases telegram <;> cases sentAt <;> rfl

/-- C10: for every notification whose channel is `email` or `telegram` (the
whole `Channel` enum), a dispatcher built by `NewDispatcher` in any
configuration mode never takes the `notifier for channel not found`
branch. -/
theorem dispatcher_total_for_channels (cfg : NotifiersModeConfig)
    (tgInitOk : Bool) (d : Channel → Option NotifierKind)
    (h : NewDispatcher cfg tgInitOk = .ok d) (n : Notification) :
    Dispatcher.Send d n ≠ DispatchResult.channelNotFound := by
  have hd : ∀ c, (d c).isSome = true := by
    intro c
    unfold NewDispatcher at h
    by_cases h1 : cfg.mode = "production" ∧ cfg.telegramBotToken ≠ ""
    · rw [if_pos h1] at h
      cases tgInitOk with
      | false => simp at h
      | true =>
          rw [if_pos rfl] at h
          simp only [Except.ok.injEq] at h
          subst h
          by_cases h2 : cfg.mode = "production" ∧ cfg.emailHost ≠ "" <;>
            cases c <;> simp [tableSet, h2]
    · rw [if_neg h1] at h
      simp only [Except.ok.injEq] at h
      subst h
      by_cases h2 : cfg.mode = "production" ∧ cfg.emailHost ≠ "" <;>
        cases c <;> simp [tableSet, h2]
  intro hbad
  unfold Dispatcher.Send at hbad
  cases hc : d n.channel with
  | none => have := hd n.channel; rw [hc] at this; simp at this
  | some k => rw [hc] at hbad; simp at hbad

/-- Witness for C10: the default `log_only` configuration yields the
all-log table, on which dispatch of the sample notification succeeds. -/
theorem dispatcher_total_for_channels_witness :
    NewDispatcher ⟨"log_only", "", ""⟩ true = .ok (fun _ => some NotifierKind.log) ∧
    Dispatcher.Send (fun _ => some NotifierKind.log) sampleNotification ≠
      DispatchResult.channelNotFound := by
  constructor
  · rfl
  · exact dispatcher_total_for_channels ⟨"log_only", "", ""⟩ true _ rfl
      sampleNotification

section DeliverySystem

/-- Worker-side view of the cached repository read: the worker re-reads
through `service.GetNotificationByID`, which is wired to
`CachedNotificationRepository.GetByID` (the cache decorator), and only
tests whether the returned error is nil, so the error payload is collapsed
to the two worker-visible cases. -/
def repoLookup (so : StoreOracle) (co : CacheOracle) (ctx : RepoCtx)
    (id : String) : Except StoreErr Notification × RepoCtx :=
  match CachedNotificationRepository.GetByID so co ctx id with
  | (.ok n, ctx') => (.ok n, ctx')
  | (.error RepoErr.notFound, ctx') => (.error .notFound, ctx')
  | (.error _, ctx') => (.error .infra, ctx')

/-- State of the delivery system: the cached persistence pair (primary
store plus cache) shared by the service and the workers, the broker
messages in flight (their decoded bodies), and how many times
`Transport.Send` has been invoked. -/
structure WSysState where
  repo : RepoCtx
  queue : List Notification
  sends : Nat

/-- The record the worker persists after a successful send
(`notification.Status = sent`, `notification.SentAt = &now`). -/
def sentRecord (m : Notification) (now : Int) : Notification :=
  { m with status := Status.sent, sentAt := some now }

/-- The message body after the failure path's `n.Attempts++`. -/
def retriedRecord (m : Notification) : Notification :=
  { m with attempts := m.attempts + 1 }

/-- The record the worker persists when retries are exhausted
(incremented attempts, `status = failed`). -/
def failedRecord (m : Notification) : Notification :=
  { retriedRecord m with status := Status.failed }

/-- One worker run of `Consumer.handleMessage` at the system level, with
the service calls bound to their real implementations: the revalidation and
the outcome `Update` go through the cached repository (the worker's
`service.GetNotificationByID` and `service.UpdateNotification` are wired to
the decorator), while `Transport.Send` and `PublishRetry` outcomes are
injected. The branch structure follows the consumer source: lookup error or
non-scheduled status acknowledges and discards; a successful send updates
to `sent` (ack on update success, `Nack(requeue=true)` keeping the message
otherwise); a failed send increments the message's attempts, at
`maxRetries` marks `failed` and updates, and otherwise republishes with the
backoff delay (ack on publish success, requeue otherwise). -/
def Consumer.processDelivery (sendOk : Bool) (so : StoreOracle)
    (co : CacheOracle) (pubOk : Bool) (s : WSysState) (m : Notification)
    (now : Int) : WSysState :=
  let lr := repoLookup so co s.repo m.id
  match lr.1 with
  | .error _ => ⟨lr.2, s.queue.erase m, s.sends⟩
  | .ok l =>
      if l.status ≠ Status.scheduled then ⟨lr.2, s.queue.erase m, s.sends⟩
      else if sendOk then
        let ur := CachedNotificationRepository.Update so co lr.2 (sentRecord m now)
        match ur.1 with
        | .ok _ => ⟨ur.2, s.queue.erase m, s.sends + 1⟩
        | .error _ => ⟨ur.2, s.queue, s.sends + 1⟩
      else
        let n1 := retriedRecord m
        if maxRetries ≤ n1.attempts then
          let ur := CachedNotificationRepository.Update so co lr.2 (failedRecord m)
          match ur.1 with
          | .ok _ => ⟨ur.2, s.queue.erase m, s.sends + 1⟩
          | .error _ => ⟨ur.2, s.queue, s.sends + 1⟩
        else if pubOk then ⟨lr.2, s.queue.erase m ++ [n1], s.sends + 1⟩
        else ⟨lr.2, s.queue, s.sends + 1⟩

/-- Transition relation of the delivery system with the cache in the state.
`read` is any read through the decorator (it can warm the cache); `cancel`
is the service's `CancelNotification` with whichever outcome its own guard
produces (a refused or failed cancel still performs its cached read);
`process` is one worker run on a queued message. `P` restricts the store
oracle and the retry-publish outcome of worker steps. -/
inductive StepC (P : StoreOracle → Bool → Prop) : WSysState → WSysState → Prop where
  | read (id : String) (so : StoreOracle) (co : CacheOracle) (s : WSysState) :
      StepC P s ⟨(CachedNotificationRepository.GetByID so co s.repo id).2,
        s.queue, s.sends⟩
  | cancel (id : String) (so : StoreOracle) (co : CacheOracle) (s : WSysState) :
      StepC P s ⟨(NotificationService.CancelNotification so co s.repo id).2,
        s.queue, s.sends⟩
  | process (m : Notification) (sendOk : Bool) (so : StoreOracle)
      (co : CacheOracle) (pubOk : Bool) (now : Int) (s : WSysState) :
      m ∈ s.queue → P so pubOk →
      StepC P s (Consumer.processDelivery sendOk so co pubOk s m now)

/-- Unrestricted transitions: any infrastructure outcome anywhere. -/
def StepAll : WSysState → WSysState → Prop := StepC fun _ _ => True

/-- Restriction under which every store `Update` and every `PublishRetry`
issued by the worker succeeds, so no `Nack(requeue=true)` redelivery ever
happens; the cache oracles stay unrestricted. -/
def ReliableInfra (so : StoreOracle) (pubOk : Bool) : Prop :=
  so.updateOk = true ∧ pubOk = true

/-- Store well-formedness: every row records its own key as its id. This
holds of the program, where the column written is the row's primary key. -/
def StoreWF (ctx : RepoCtx) : Prop :=
  ∀ k row, ctx.store.rows k = some row → row.id = k

/-- Terminal coherence for an id: the stored row is in a terminal status
and the cache holds no stale `scheduled` entry under the id's key (the
situation after a successful best-effort invalidation). -/
def TerminalCoherent (s : WSysState) (id : String) (st : Status) : Prop :=
  Status.isTerminal st = true ∧
  (∃ row, s.repo.store.rows id = some row ∧ row.status = st) ∧
  (∀ c, s.repo.cache.entries (RedisNotificationKeyBuild id) = some c →
     c.status ≠ Status.scheduled)

/-- Remaining send budget carried by the in-flight messages: each queued
message can still trigger at most `5 - attempts` sends. -/
def queuedBudget (q : List Notification) : Int :=
  (q.map (fun m => 5 - m.attempts)).sum

/-- Inductive invariant for the reliable bound on a tracked notification:
every queued message carries the tracked id and a non-negative attempts
counter below `maxRetries`, the tracked row exists in the store, and sends
plus the queue budget never exceed 5. -/
def SendBudgetInv (id0 : String) (s : WSysState) : Prop :=
  (∀ m ∈ s.queue, 0 ≤ m.attempts ∧ m.attempts < 5 ∧ m.id = id0) ∧
  (∃ row, s.repo.store.rows id0 = some row) ∧
  (s.sends : Int) + queuedBudget s.queue ≤ 5

end DeliverySystem

section MoreSamples

/-- The sample row after the store-level cancel. -/
def cancelledRow : Notification :=
  { sampleNotification with status := Status.cancelled }

/-- System context after a successful cancel whose best-effort cache
invalidation failed: the store row is `cancelled`, but the stale
`scheduled` entry is still cached under the notification's key. -/
def ctxStaleCancelled : RepoCtx :=
  ⟨⟨mapSet ctxWarm.store.rows sampleNotification.id (some cancelledRow)⟩,
   ctxWarm.cache⟩

/-- Context after the worker, revalidating through the stale cache hit,
overwrote the cancelled row to `sent` and invalidated the entry. -/
def ctxOverwritten : RepoCtx :=
  ⟨⟨mapSet ctxStaleCancelled.store.rows sampleNotification.id (some sampleSent)⟩,
   ⟨mapSet ctxStaleCancelled.cache.entries
      (RedisNotificationKeyBuild sampleNotification.id) none⟩⟩

/-- Context of a completed reliable delivery: the row updated to `sent` and
the cache entry invalidated. -/
def ctxDelivered : RepoCtx :=
  ⟨⟨mapSet ctxWarm.store.rows sampleNotification.id (some sampleSent)⟩,
   ⟨mapSet ctxWarm.cache.entries
      (RedisNotificationKeyBuild sampleNotification.id) none⟩⟩

/-- The sent-row context after a worker read warmed the cold cache. -/
def ctxWarmSent : RepoCtx :=
  ⟨ctxSentRow.store,
   ⟨mapSet ctxSentRow.cache.entries (RedisNotificationKeyBuild sampleSent.id)
      (some sampleSent)⟩⟩

end MoreSamples

/-- A terminal status is not `scheduled`. -/
lemma Status.isTerminal_ne_scheduled {st : Status}
    (h : Status.isTerminal st = true) : st ≠ Status.scheduled := by
  cases st <;> simp [Status.isTerminal] at h ⊢

/-- The cache key builder is injective. -/
lemma redisKey_inj {a b : String}
    (h : RedisNotificationKeyBuild a = RedisNotificationKeyBuild b) : a = b := by
  unfold RedisNotificationKeyBuild at h
  have hd : "redis:notification:".data ++ a.data =
      "redis:notification:".data ++ b.data := by
    have := congrArg String.data h
    simpa [String.data_append] using this
  have hab := List.append_cancel_left hd
  cases a
  cases b
  exact congrArg String.mk hab

/-- A successful primary read returns the stored row. -/
lemma pg_getByID_ok {so : StoreOracle} {s : StoreSt} {id : String}
    {n : Notification} (h : PostgresRepository.GetByID so s id = .ok n) :
    s.rows id = some n := by
  unfold PostgresRepository.GetByID at h
  by_cases hg : so.getOk = true
  · rw [if_pos hg] at h
    cases hr : s.rows id with
    | none => rw [hr] at h; simp at h
    | some r =>
        rw [hr] at h
        simp at h
        rw [h]
  · rw [if_neg hg] at h
    simp at h

/-- A successful cache read returns the cached entry. -/
lemma cache_get_ok {co : CacheOracle} {c : CacheSt} {id : String}
    {n : Notification} (h : NotificationCache.Get co c id = .ok n) :
    c.entries (RedisNotificationKeyBuild id) = some n := by
  unfold NotificationCache.Get at h
  by_cases hg : co.getOk = true
  · rw [if_pos hg] at h
    cases he : c.entries (RedisNotificationKeyBuild id) with
    | none => rw [he] at h; simp at h
    | some x =>
        rw [he] at h
        simp at h
        rw [h]
  · rw [if_neg hg] at h
    simp at h

/-- A value returned by the cached read comes either from the cache entry
under the id's key or from the primary store row. -/
lemma getByID_ok_source {so : StoreOracle} {co : CacheOracle} {ctx : RepoCtx}
    {id : String} {n : Notification}
    (h : (CachedNotificationRepository.GetByID so co ctx id).1 = .ok n) :
    ctx.cache.entries (RedisNotificationKeyBuild id) = some n ∨
    ctx.store.rows id = some n := by
  unfold CachedNotificationRepository.GetByID at h
  cases hg : NotificationCache.Get co ctx.cache id with
  | ok c =>
      rw [hg] at h
      simp at h
      exact Or.inl (by rw [cache_get_ok hg, h])
  | error e =>
      rw [hg] at h
      cases hp : PostgresRepository.GetByID so ctx.store id with
      | error e2 => rw [hp] at h; simp at h
      | ok r =>
          rw [hp] at h
          simp at h
          exact Or.inr (by rw [pg_getByID_ok hp, h])

/-- The state after a cached read: unchanged on a hit or a failed primary
read, otherwise the read row cached best-effort over the same store. -/
lemma getByID_snd (so : StoreOracle) (co : CacheOracle) (ctx : RepoCtx)
    (id : String) :
    (CachedNotificationRepository.GetByID so co ctx id).2 = ctx ∨
    ∃ row, ctx.store.rows id = some row ∧
      (CachedNotificationRepository.GetByID so co ctx id).2 =
        ⟨ctx.store, (NotificationCache.Set co ctx.cache row).2⟩ := by
  unfold CachedNotificationRepository.GetByID
  cases hg : NotificationCache.Get co ctx.cache id with
  | ok c => exact Or.inl rfl
  | error e =>
      cases hp : PostgresRepository.GetByID so ctx.store id with
      | error e2 => exact Or.inl rfl
      | ok r => exact Or.inr ⟨r, pg_getByID_ok hp, rfl⟩

/-- Entries after a cache `Set`: unchanged away from the value's key,
possibly the new value at it. -/
lemma cacheSet_entries (co : CacheOracle) (c : CacheSt) (n : Notification)
    (k : String) :
    (NotificationCache.Set co c n).2.entries k = c.entries k ∨
    (k = RedisNotificationKeyBuild n.id ∧
      (NotificationCache.Set co c n).2.entries k = some n) := by
  unfold NotificationCache.Set
  by_cases hs : co.setOk = true
  · rw [if_pos hs]
    by_cases hk : k = RedisNotificationKeyBuild n.id
    · exact Or.inr ⟨hk, by dsimp [mapSet]; rw [if_pos hk]⟩
    · exact Or.inl (by dsimp [mapSet]; rw [if_neg hk])
  · rw [if_neg hs]
    exact Or.inl rfl

/-- Entries after a cache `Delete`: unchanged or removed. -/
lemma cacheDel_entries (co : CacheOracle) (c : CacheSt) (id k : String) :
    (NotificationCache.Delete co c id).2.entries k = c.entries k ∨
    (NotificationCache.Delete co c id).2.entries k = none := by
  unfold NotificationCache.Delete
  by_cases hd : co.delOk = true
  · rw [if_pos hd]
    by_cases hk : k = RedisNotificationKeyBuild id
    · exact Or.inr (by dsimp [mapSet]; rw [if_pos hk])
    · exact Or.inl (by dsimp [mapSet]; rw [if_neg hk])
  · rw [if_neg hd]
    exact Or.inl rfl

/-- Rows after a primary `Update`: unchanged away from the row's id, the
single-statement overwrite at it. -/
lemma pgUpdate_rows (so : StoreOracle) (s : StoreSt) (n : Notification)
    (k : String) :
    ((PostgresRepository.Update so s n).2).rows k = s.rows k ∨
    (k = n.id ∧ ∃ row, s.rows n.id = some row ∧
      ((PostgresRepository.Update so s n).2).rows k =
        some (applyStatusUpdate row n)) := by
  unfold PostgresRepository.Update
  by_cases hu : so.updateOk = true
  · rw [if_pos hu]
    cases hr : s.rows n.id with
    | none => exact Or.inl rfl
    | some row =>
        by_cases hk : k = n.id
        · exact Or.inr ⟨hk, row, rfl, by dsimp [mapSet]; rw [if_pos hk]⟩
        · exact Or.inl (by dsimp [mapSet]; rw [if_neg hk])
  · rw [if_neg hu]
    exact Or.inl rfl

/-- Rows after a primary soft delete: unchanged away from the id, the
`cancelled` overwrite at it. -/
lemma pgDelete_rows (so : StoreOracle) (s : StoreSt) (id k : String) :
    ((PostgresRepository.Delete so s id).2).rows k = s.rows k ∨
    (k = id ∧ ∃ row, s.rows id = some row ∧
      ((PostgresRepository.Delete so s id).2).rows k =
        some { row with status := Status.cancelled }) := by
  unfold PostgresRepository.Delete
  by_cases hc : so.cancelOk = true
  · rw [if_pos hc]
    cases hr : s.rows id with
    | none => exact Or.inl rfl
    | some row =>
        by_cases hk : k = id
        · exact Or.inr ⟨hk, row, rfl, by dsimp [mapSet]; rw [if_pos hk]⟩
        · exact Or.inl (by dsimp [mapSet]; rw [if_neg hk])
  · rw [if_neg hc]
    exact Or.inl rfl

/-- The cached `Update` writes the store exactly as the primary does. -/
lemma cachedUpdate_store (so : StoreOracle) (co : CacheOracle) (ctx : RepoCtx)
    (n : Notification) :
    (CachedNotificationRepository.Update so co ctx n).2.store =
      (PostgresRepository.Update so ctx.store n).2 := by
  unfold CachedNotificationRepository.Update
  cases hp : PostgresRepository.Update so ctx.store n with
  | mk res s' => cases res <;> rfl

/-- The cached `Update` leaves the cache unchanged or best-effort
invalidates the row's key. -/
lemma cachedUpdate_cache (so : StoreOracle) (co : CacheOracle) (ctx : RepoCtx)
    (n : Notification) :
    (CachedNotificationRepository.Update so co ctx n).2.cache = ctx.cache ∨
    (CachedNotificationRepository.Update so co ctx n).2.cache =
      (NotificationCache.Delete co ctx.cache n.id).2 := by
  unfold CachedNotificationRepository.Update
  cases hp : PostgresRepository.Update so ctx.store n with
  | mk res s' =>
      cases res with
      | error e => exact Or.inl rfl
      | ok u => exact Or.inr rfl

/-- The cached `Delete` writes the store exactly as the primary soft delete
does. -/
lemma cachedDelete_store (so : StoreOracle) (co : CacheOracle) (ctx : RepoCtx)
    (id : String) :
    (CachedNotificationRepository.Delete so co ctx id).2.store =
      (PostgresRepository.Delete so ctx.store id).2 := by
  unfold CachedNotificationRepository.Delete
  cases hp : PostgresRepository.Delete so ctx.store id with
  | mk res s' => cases res <;> rfl

/-- The cached `Delete` leaves the cache unchanged or best-effort
invalidates the id's key. -/
lemma cachedDelete_cache (so : StoreOracle) (co : CacheOracle) (ctx : RepoCtx)
    (id : String) :
    (CachedNotificationRepository.Delete so co ctx id).2.cache = ctx.cache ∨
    (CachedNotificationRepository.Delete so co ctx id).2.cache =
      (NotificationCache.Delete co ctx.cache id).2 := by
  unfold CachedNotificationRepository.Delete
  cases hp : PostgresRepository.Delete so ctx.store id with
  | mk res s' =>
      cases res with
      | error e => exact Or.inl rfl
      | ok u => exact Or.inr rfl

/-- A cached `Update` on an existing row succeeds when the primary update
statement succeeds. -/
lemma cachedUpdate_ok_of_row (co : CacheOracle) {so : StoreOracle}
    {ctx : RepoCtx} {n row : Notification} (hu : so.updateOk = true)
    (hr : ctx.store.rows n.id = some row) :
    (CachedNotificationRepository.Update so co ctx n).1 = .ok () := by
  have hp : PostgresRepository.Update so ctx.store n =
      (.ok (), ⟨mapSet ctx.store.rows n.id (some (applyStatusUpdate row n))⟩) := by
    unfold PostgresRepository.Update
    rw [if_pos hu, hr]
  unfold CachedNotificationRepository.Update
  rw [hp]

/-- The state after the service's cancel: the cached read's state when the
guard refused or the read failed, otherwise the cached soft delete after a
`scheduled` read-back. -/
lemma cancelNotification_snd (so : StoreOracle) (co : CacheOracle)
    (ctx : RepoCtx) (id : String) :
    (NotificationService.CancelNotification so co ctx id).2 =
      (CachedNotificationRepository.GetByID so co ctx id).2 ∨
    ∃ n, (CachedNotificationRepository.GetByID so co ctx id).1 = .ok n ∧
      n.status = Status.scheduled ∧
      (NotificationService.CancelNotification so co ctx id).2 =
        (CachedNotificationRepository.Delete so co
          (CachedNotificationRepository.GetByID so co ctx id).2 id).2 := by
  unfold NotificationService.CancelNotification
  cases hg : CachedNotificationRepository.GetByID so co ctx id with
  | mk res ctx1 =>
      cases res with
      | error e => exact Or.inl rfl
      | ok n =>
          dsimp only
          by_cases hs : n.status = Status.scheduled
          · refine Or.inr ⟨n, rfl, hs, ?_⟩
            rw [if_neg (fun hcon => hcon hs)]
            cases hd : CachedNotificationRepository.Delete so co ctx1 id with
            | mk res2 ctx2 => cases res2 <;> rfl
          · exact Or.inl (by rw [if_pos hs])

/-- The worker-side lookup preserves the cached read's resulting state. -/
lemma repoLookup_snd (so : StoreOracle) (co : CacheOracle) (ctx : RepoCtx)
    (id : String) :
    (repoLookup so co ctx id).2 =
      (CachedNotificationRepository.GetByID so co ctx id).2 := by
  unfold repoLookup
  cases hg : CachedNotificationRepository.GetByID so co ctx id with
  | mk res c =>
      cases res with
      | ok x => rfl
      | error e => cases e <;> rfl

/-- The worker-side lookup never writes the primary store. -/
lemma repoLookup_store (so : StoreOracle) (co : CacheOracle) (ctx : RepoCtx)
    (id : String) :
    (repoLookup so co ctx id).2.store = ctx.store := by
  rw [repoLookup_snd, getByID_preserves_store]

/-- A successful worker-side lookup is a successful cached read. -/
lemma repoLookup_fst_ok {so : StoreOracle} {co : CacheOracle} {ctx : RepoCtx}
    {id : String} {n : Notification}
    (h : (repoLookup so co ctx id).1 = .ok n) :
    (CachedNotificationRepository.GetByID so co ctx id).1 = .ok n := by
  unfold repoLookup at h
  cases hg : CachedNotificationRepository.GetByID so co ctx id with
  | mk res c =>
      rw [hg] at h
      cases res with
      | ok x =>
          dsimp only at h ⊢
          simp at h
          rw [h]
      | error e => cases e <;> simp at h

/-- The repository state a worker run leaves behind: the lookup's state, or
a cached `Update` of either outcome record applied to it after a
`scheduled` read-back. -/
lemma processDelivery_repo (sendOk : Bool) (so : StoreOracle)
    (co : CacheOracle) (pubOk : Bool) (s : WSysState) (m : Notification)
    (now : Int) :
    (Consumer.processDelivery sendOk so co pubOk s m now).repo =
      (repoLookup so co s.repo m.id).2 ∨
    ∃ l, (repoLookup so co s.repo m.id).1 = .ok l ∧
      l.status = Status.scheduled ∧
      ∃ n', n'.id = m.id ∧
        (Consumer.processDelivery sendOk so co pubOk s m now).repo =
          (CachedNotificationRepository.Update so co
            (repoLookup so co s.repo m.id).2 n').2 := by
  simp only [Consumer.processDelivery]
  cases hlr : (repoLookup so co s.repo m.id).1 with
  | error e => exact Or.inl rfl
  | ok l =>
      dsimp only
      by_cases hls : l.status = Status.scheduled
      · rw [if_neg (fun hcon => hcon hls)]
        by_cases hsend : sendOk = true
        · rw [if_pos hsend]
          refine Or.inr ⟨l, rfl, hls, sentRecord m now, rfl, ?_⟩
          cases hur : (CachedNotificationRepository.Update so co
              (repoLookup so co s.repo m.id).2 (sentRecord m now)).1 <;> rfl
        · rw [if_neg hsend]
          by_cases h5 : maxRetries ≤ (retriedRecord m).attempts
          · rw [if_pos h5]
            refine Or.inr ⟨l, rfl, hls, failedRecord m, rfl, ?_⟩
            cases hur : (CachedNotificationRepository.Update so co
                (repoLookup so co s.repo m.id).2 (failedRecord m)).1 <;> rfl
          · rw [if_neg h5]
            by_cases hp : pubOk = true
            · rw [if_pos hp]; exact Or.inl rfl
            · rw [if_neg hp]; exact Or.inl rfl
      · rw [if_pos hls]
        exact Or.inl rfl

/-- Well-formedness is preserved by the primary update statement. -/
lemma pgUpdate_wf {so : StoreOracle} {s : StoreSt} {n : Notification}
    (h : ∀ k row, s.rows k = some row → row.id = k) :
    ∀ k row, ((PostgresRepository.Update so s n).2).rows k = some row →
      row.id = k := by
  intro k row hk
  rcases pgUpdate_rows so s n k with he | ⟨hkn, r0, hr0, he⟩
  · rw [he] at hk
    exact h k row hk
  · rw [he] at hk
    injection hk with hk
    rw [← hk]
    have : r0.id = n.id := h n.id r0 hr0
    rw [hkn]
    exact this
  
/-- Well-formedness is preserved by the primary soft delete. -/
lemma pgDelete_wf {so : StoreOracle} {s : StoreSt} {id : String}
    (h : ∀ k row, s.rows k = some row → row.id = k) :
    ∀ k row, ((PostgresRepository.Delete so s id).2).rows k = some row →
      row.id = k := by
  intro k row hk
  rcases pgDelete_rows so s id k with he | ⟨hkn, r0, hr0, he⟩
  · rw [he] at hk
    exact h k row hk
  · rw [he] at hk
    injection hk with hk
    rw [← hk]
    have : r0.id = id := h id r0 hr0
    rw [hkn]
    exact this

/-- A cached read preserves terminal coherence for every id: the store is
untouched and a warm-up can only write the read store row, which under the
tracked key is the terminal row itself. -/
lemma coherent_after_getByID (so : StoreOracle) (co : CacheOracle)
    (id' : String) {ctx : RepoCtx} {id : String} {st : Status} (hwf : StoreWF ctx)
    (hterm : Status.isTerminal st = true)
    (hrow : ∃ row, ctx.store.rows id = some row ∧ row.status = st)
    (hcoh : ∀ c, ctx.cache.entries (RedisNotificationKeyBuild id) = some c →
       c.status ≠ Status.scheduled) :
    ∀ c, (CachedNotificationRepository.GetByID so co ctx id').2.cache.entries
        (RedisNotificationKeyBuild id) = some c →
      c.status ≠ Status.scheduled := by
  intro c hc
  rcases getByID_snd so co ctx id' with h | ⟨row, hrows, h⟩
  · rw [h] at hc
    exact hcoh c hc
  · rw [h] at hc
    dsimp only at hc
    rcases cacheSet_entries co ctx.cache row (RedisNotificationKeyBuild id)
      with h2 | ⟨hk, h2⟩
    · rw [h2] at hc
      exact hcoh c hc
    · rw [h2] at hc
      injection hc with hc
      have hid : id = row.id := redisKey_inj hk
      have hrid : row.id = id' := hwf id' row hrows
      obtain ⟨row0, hrow0, hst0⟩ := hrow
      have hii : id' = id := by rw [hid, hrid]
      subst hii
      rw [hrow0] at hrows
      injection hrows with hre
      rw [← hc, ← hre, hst0]
      exact Status.isTerminal_ne_scheduled hterm

/-- Every step of the delivery system — under any infrastructure outcome —
leaves a terminally coherent row untouched and preserves both coherence and
store well-formedness. -/
lemma stepAll_preserves_coherent {s s' : WSysState} {id : String}
    {st : Status} (h : StepAll s s') (hwf : StoreWF s.repo)
    (hc : TerminalCoherent s id st) :
    s'.repo.store.rows id = s.repo.store.rows id ∧ StoreWF s'.repo ∧
    TerminalCoherent s' id st := by
  obtain ⟨hterm, hrow, hcoh⟩ := hc
  cases h with
  | read id' so co s =>
      have hst : (CachedNotificationRepository.GetByID so co s.repo id').2.store =
          s.repo.store := getByID_preserves_store so co s.repo id'
      refine ⟨by rw [hst], ?_, hterm, ?_, ?_⟩
      · intro k row hk
        rw [hst] at hk
        exact hwf k row hk
      · obtain ⟨row0, hrow0, hst0⟩ := hrow
        exact ⟨row0, by rw [hst]; exact hrow0, hst0⟩
      · exact coherent_after_getByID so co id' hwf hterm hrow hcoh
  | cancel id' so co s =>
      rcases cancelNotification_snd so co s.repo id' with he | ⟨n, hok, hsch, he⟩
      · have hst : (NotificationService.CancelNotification so co s.repo id').2.store =
            s.repo.store := by
          rw [he, getByID_preserves_store]
        refine ⟨by rw [hst], ?_, hterm, ?_, ?_⟩
        · intro k row hk
          rw [hst] at hk
          exact hwf k row hk
        · obtain ⟨row0, hrow0, hst0⟩ := hrow
          exact ⟨row0, by rw [hst]; exact hrow0, hst0⟩
        · intro c hcc
          rw [he] at hcc
          exact coherent_after_getByID so co id' hwf hterm hrow hcoh c hcc
      · by_cases hid : id' = id
        · exfalso
          subst hid
          rcases getByID_ok_source hok with hsrc | hsrc
          · exact hcoh n hsrc hsch
          · obtain ⟨row0, hrow0, hst0⟩ := hrow
            rw [hrow0] at hsrc
            injection hsrc with hsrc
            rw [← hsrc, hst0] at hsch
            exact Status.isTerminal_ne_scheduled hterm hsch
        · -- id' ≠ id: the soft delete touches another row
          have hgs : (CachedNotificationRepository.GetByID so co s.repo id').2.store =
              s.repo.store := getByID_preserves_store so co s.repo id'
          have hstore : (NotificationService.CancelNotification so co s.repo id').2.store =
              (PostgresRepository.Delete so s.repo.store id').2 := by
            rw [he, cachedDelete_store, hgs]
          have hrows_id :
              ((PostgresRepository.Delete so s.repo.store id').2).rows id =
                s.repo.store.rows id := by
            rcases pgDelete_rows so s.repo.store id' id with h3 | ⟨hk, -, -, -⟩
            · exact h3
            · exact absurd hk.symm hid
          refine ⟨by rw [hstore, hrows_id], ?_, hterm, ?_, ?_⟩
          · intro k row hk
            rw [hstore] at hk
            exact pgDelete_wf hwf k row hk
          · obtain ⟨row0, hrow0, hst0⟩ := hrow
            exact ⟨row0, by rw [hstore, hrows_id]; exact hrow0, hst0⟩
          · intro c hcc
            rw [he] at hcc
            have hcoh1 := coherent_after_getByID so co id' hwf hterm hrow hcoh
            rcases cachedDelete_cache so co
                (CachedNotificationRepository.GetByID so co s.repo id').2 id'
              with h4 | h4
            · rw [h4] at hcc
              exact hcoh1 c hcc
            · rw [h4] at hcc
              rcases cacheDel_entries co
                  (CachedNotificationRepository.GetByID so co s.repo id').2.cache
                  id' (RedisNotificationKeyBuild id) with h5 | h5
              · rw [h5] at hcc
                exact hcoh1 c hcc
              · rw [h5] at hcc
                exact absurd hcc (by simp)
  | process m sendOk so co pubOk now s hm hP =>
      rcases processDelivery_repo sendOk so co pubOk s m now
        with he | ⟨l, hok, hsch, n', hn', he⟩
      · have hst : (Consumer.processDelivery sendOk so co pubOk s m now).repo.store =
            s.repo.store := by
          rw [he, repoLookup_store]
        refine ⟨by rw [hst], ?_, hterm, ?_, ?_⟩
        · intro k row hk
          rw [hst] at hk
          exact hwf k row hk
        · obtain ⟨row0, hrow0, hst0⟩ := hrow
          exact ⟨row0, by rw [hst]; exact hrow0, hst0⟩
        · intro c hcc
          rw [he, repoLookup_snd] at hcc
          exact coherent_after_getByID so co m.id hwf hterm hrow hcoh c hcc
      · by_cases hid : m.id = id
        · exfalso
          rw [hid] at hok
          rcases getByID_ok_source (repoLookup_fst_ok hok) with hsrc | hsrc
          · exact hcoh l hsrc hsch
          · obtain ⟨row0, hrow0, hst0⟩ := hrow
            rw [hrow0] at hsrc
            injection hsrc with hsrc
            rw [← hsrc, hst0] at hsch
            exact Status.isTerminal_ne_scheduled hterm hsch
        · have hgs : (repoLookup so co s.repo m.id).2.store = s.repo.store :=
            repoLookup_store so co s.repo m.id
          have hstore : (Consumer.processDelivery sendOk so co pubOk s m now).repo.store =
              (PostgresRepository.Update so s.repo.store n').2 := by
            rw [he, cachedUpdate_store, hgs]
          have hrows_id :
              ((PostgresRepository.Update so s.repo.store n').2).rows id =
                s.repo.store.rows id := by
            rcases pgUpdate_rows so s.repo.store n' id with h3 | ⟨hk, -, -, -⟩
            · exact h3
            · rw [hn'] at hk
              exact absurd hk.symm hid
          refine ⟨by rw [hstore, hrows_id], ?_, hterm, ?_, ?_⟩
          · intro k row hk
            rw [hstore] at hk
            exact pgUpdate_wf hwf k row hk
          · obtain ⟨row0, hrow0, hst0⟩ := hrow
            exact ⟨row0, by rw [hstore, hrows_id]; exact hrow0, hst0⟩
          · intro c hcc
            rw [he] at hcc
            have hcoh1 : ∀ c2,
                (repoLookup so co s.repo m.id).2.cache.entries
                  (RedisNotificationKeyBuild id) = some c2 →
                c2.status ≠ Status.scheduled := by
              intro c2 hc2
              rw [repoLookup_snd] at hc2
              exact coherent_after_getByID so co m.id hwf hterm hrow hcoh c2 hc2
            rcases cachedUpdate_cache so co (repoLookup so co s.repo m.id).2 n'
              with h4 | h4
            · rw [h4] at hcc
              exact hcoh1 c hcc
            · rw [h4] at hcc
              rcases cacheDel_entries co (repoLookup so co s.repo m.id).2.cache
                  n'.id (RedisNotificationKeyBuild id) with h5 | h5
              · rw [h5] at hcc
                exact hcoh1 c hcc
              · rw [h5] at hcc
                exact absurd hcc (by simp)

/-- C1 counterexample: from a freshly created notification (stored
`scheduled`, warm cache, one in-flight message), a successful user cancel
whose best-effort cache invalidation fails leaves the store row terminal
(`cancelled`) with a stale `scheduled` cache entry; the worker then
dequeues the message, revalidates through the cache hit, sends, and its
status update overwrites the terminal row to `sent` — the stored status of
a terminal row changes under a reachable sequence of service and worker
operations. -/
theorem terminal_monotonicity_counterexample :
    StepAll ⟨ctxWarm, [sampleNotification], 0⟩
      ⟨ctxStaleCancelled, [sampleNotification], 0⟩ ∧
    ctxStaleCancelled.store.rows sampleNotification.id = some cancelledRow ∧
    Status.isTerminal cancelledRow.status = true ∧
    StepAll ⟨ctxStaleCancelled, [sampleNotification], 0⟩ ⟨ctxOverwritten, [], 1⟩ ∧
    ctxOverwritten.store.rows sampleNotification.id = some sampleSent ∧
    sampleSent.status ≠ cancelledRow.status := by
  refine ⟨?_, rfl, rfl, ?_, rfl, by decide⟩
  · exact StepC.cancel sampleNotification.id storeOracleOk cacheOracleDelFail
      ⟨ctxWarm, [sampleNotification], 0⟩
  · exact StepC.process sampleNotification true storeOracleOk cacheOracleOk true
      2000000000 ⟨ctxStaleCancelled, [sampleNotification], 0⟩ (by simp) trivial

/-- C1 amended: once the stored status of a notification is terminal and
the cache holds no stale `scheduled` entry under its key (the state a
successful best-effort invalidation leaves), no reachable sequence of
service and worker operations — reads, cancels and worker runs under any
infrastructure outcome — ever touches the stored row again; in particular
the store-level cancel is never applied to it. -/
theorem terminal_coherent_is_forever (s s' : WSysState)
    (h : Relation.ReflTransGen StepAll s s') (id : String) (st : Status)
    (hwf : StoreWF s.repo) (hc : TerminalCoherent s id st) :
    s'.repo.store.rows id = s.repo.store.rows id ∧
    ∃ row, s'.repo.store.rows id = some row ∧ row.status = st := by
  have key : StoreWF s'.repo ∧ TerminalCoherent s' id st ∧
      s'.repo.store.rows id = s.repo.store.rows id := by
    induction h with
    | refl => exact ⟨hwf, hc, rfl⟩
    | tail hab hbc ih =>
        obtain ⟨hwfb, hcb, heq⟩ := ih
        obtain ⟨heq2, hwf2, hc2⟩ := stepAll_preserves_coherent hbc hwfb hcb
        exact ⟨hwf2, hc2, by rw [heq2, heq]⟩
  exact ⟨key.2.2, key.2.1.2.1⟩

/-- Witness for C1 amended: a worker run that dequeues a replayed message
for an already-sent row with a cold (coherent) cache warms the cache with
the terminal row and leaves the stored row untouched. -/
theorem terminal_coherent_is_forever_witness :
    StoreWF ctxSentRow ∧
    TerminalCoherent ⟨ctxSentRow, [sampleNotification], 0⟩
      sampleNotification.id Status.sent ∧
    (⟨ctxWarmSent, [], 0⟩ : WSysState).repo.store.rows sampleNotification.id =
      some sampleSent := by
  have hwf : StoreWF ctxSentRow := by
    intro k row hrow
    by_cases hk : k = sampleSent.id
    · subst hk
      simp only [ctxSentRow, mapSet, if_pos rfl] at hrow
      injection hrow with hrow
      rw [← hrow]
    · simp only [ctxSentRow, mapSet, if_neg hk] at hrow
      exact absurd hrow (by simp)
  have hc : TerminalCoherent ⟨ctxSentRow, [sampleNotification], 0⟩
      sampleNotification.id Status.sent := by
    refine ⟨rfl, ⟨sampleSent, rfl, rfl⟩, ?_⟩
    intro c hcc
    exact absurd hcc (by simp [ctxSentRow])
  refine ⟨hwf, hc, ?_⟩
  have h := terminal_coherent_is_forever ⟨ctxSentRow, [sampleNotification], 0⟩
    ⟨ctxWarmSent, [], 0⟩
    (Relation.ReflTransGen.single
      (StepC.process sampleNotification true storeOracleOk cacheOracleOk true 0
        ⟨ctxSentRow, [sampleNotification], 0⟩ (by simp) trivial))
    sampleNotification.id Status.sent hwf hc
  rw [h.1]
  rfl

/-- System state along the C2 counterexample run: the scheduled row with
its warm cache entry, the original broker message still in flight, and `k`
sends so far. -/
def retryStateC (k : Nat) : WSysState := ⟨ctxWarm, [sampleNotification], k⟩

/-- Each failed send whose retry republish also fails ends in
`Nack(requeue=true)`: the message stays queued with its old attempts
counter and one more `Transport.Send` has happened. -/
lemma step_retryStateC (k : Nat) :
    StepAll (retryStateC k) (retryStateC (k + 1)) := by
  exact StepC.process sampleNotification false storeOracleOk cacheOracleOk false
    0 (retryStateC k) (by simp [retryStateC]) trivial

/-- The counterexample run of length `k`. -/
lemma reaches_retryStateC (k : Nat) :
    Relation.ReflTransGen StepAll (retryStateC 0) (retryStateC k) := by
  induction k with
  | zero => exact Relation.ReflTransGen.refl
  | succ k ih => exact Relation.ReflTransGen.tail ih (step_retryStateC k)

/-- C2 counterexample: starting from a freshly created notification
(stored `scheduled` with `attempts = 0`, warm cache, its one broker
message), repeated transport failures whose retry republishes also fail
drive the worker through `Nack(requeue=true)` redeliveries whose message
body still carries the old attempts counter, so `Transport.Send` is
invoked six times — the claimed lifetime bound of 5 is violated. -/
theorem bounded_attempts_counterexample :
    ¬ (∀ s' : WSysState,
        Relation.ReflTransGen StepAll (retryStateC 0) s' → s'.sends ≤ 5) := by
  intro h
  have h6 := h (retryStateC 6) (reaches_retryStateC 6)
  simp [retryStateC] at h6

lemma queuedBudget_nonneg {q : List Notification}
    (h : ∀ m ∈ q, m.attempts < 5) : 0 ≤ queuedBudget q := by
  induction q with
  | nil => simp [queuedBudget]
  | cons a t ih =>
      have ha := h a (List.mem_cons_self a t)
      have h2 : 0 ≤ queuedBudget t := ih fun m hm => h m (List.mem_cons_of_mem a hm)
      have h2' : 0 ≤ (t.map (fun m => (5 : Int) - m.attempts)).sum := h2
      simp only [queuedBudget, List.map_cons, List.sum_cons]
      omega

lemma queuedBudget_erase {q : List Notification} {m : Notification} (hm : m ∈ q) :
    queuedBudget q = (5 - m.attempts) + queuedBudget (q.erase m) := by
  have hp : q.Perm (m :: q.erase m) := List.perm_cons_erase hm
  have hs := (hp.map (fun x => (5 : Int) - x.attempts)).sum_eq
  simpa [queuedBudget] using hs

lemma queuedBudget_append (q1 q2 : List Notification) :
    queuedBudget (q1 ++ q2) = queuedBudget q1 + queuedBudget q2 := by
  simp [queuedBudget]

/-- The cancel operation keeps the tracked row present: soft deletes only
overwrite rows, never remove them. -/
lemma cancel_row_stays {so : StoreOracle} {co : CacheOracle} {ctx : RepoCtx}
    {id' id0 : String} (h : ∃ row, ctx.store.rows id0 = some row) :
    ∃ row, (NotificationService.CancelNotification so co ctx id').2.store.rows
      id0 = some row := by
  rcases cancelNotification_snd so co ctx id' with he | ⟨n, -, -, he⟩
  · rw [he, getByID_preserves_store]
    exact h
  · rw [he, cachedDelete_store, getByID_preserves_store]
    rcases pgDelete_rows so ctx.store id' id0 with h3 | ⟨-, r, -, h3⟩
    · rw [h3]
      exact h
    · exact ⟨_, h3⟩

/-- The update statement keeps the tracked row present. -/
lemma update_row_stays {so : StoreOracle} {ctx : StoreSt} {n : Notification}
    {id0 : String} (h : ∃ row, ctx.rows id0 = some row) :
    ∃ row, ((PostgresRepository.Update so ctx n).2).rows id0 = some row := by
  rcases pgUpdate_rows so ctx n id0 with h3 | ⟨-, r, -, h3⟩
  · rw [h3]
    exact h
  · exact ⟨_, h3⟩

/-- Every step under reliable updates and republishes preserves the send
budget invariant, with every cache outcome in scope: a stale-cache
revalidation pass still consumes the processed message's budget, because
the attempts counter rides in the message body. -/
lemma reliable_stepC_preserves_inv {id0 : String} {s s' : WSysState}
    (h : StepC ReliableInfra s s') (hI : SendBudgetInv id0 s) :
    SendBudgetInv id0 s' := by
  obtain ⟨hq, hrow, hp⟩ := hI
  cases h with
  | read id' so co s =>
      refine ⟨hq, ?_, hp⟩
      rw [getByID_preserves_store]
      exact hrow
  | cancel id' so co s =>
      exact ⟨hq, cancel_row_stays hrow, hp⟩
  | process m sendOk so co pubOk now s hm hP =>
      obtain ⟨hup, hpub⟩ := hP
      obtain ⟨h0, hlt5, hid⟩ := hq m hm
      have herase := queuedBudget_erase hm
      have hbe : 0 ≤ queuedBudget (s.queue.erase m) :=
        queuedBudget_nonneg fun m2 hm2 => (hq m2 (List.mem_of_mem_erase hm2)).2.1
      have hqe : ∀ m2 ∈ s.queue.erase m,
          0 ≤ m2.attempts ∧ m2.attempts < 5 ∧ m2.id = id0 :=
        fun m2 hm2 => hq m2 (List.mem_of_mem_erase hm2)
      have hrow1 : ∃ row, (repoLookup so co s.repo m.id).2.store.rows id0 = some row := by
        rw [repoLookup_store]
        exact hrow
      have hrowm : ∃ row, s.repo.store.rows m.id = some row := by
        rw [hid]
        exact hrow
      have hrow1m : ∃ row, (repoLookup so co s.repo m.id).2.store.rows m.id = some row := by
        rw [repoLookup_store]
        exact hrowm
      simp only [Consumer.processDelivery]
      cases hlr : (repoLookup so co s.repo m.id).1 with
      | error e =>
          refine ⟨hqe, hrow1, ?_⟩
          show (s.sends : Int) + queuedBudget (s.queue.erase m) ≤ 5
          omega
      | ok l =>
          dsimp only
          by_cases hls : l.status = Status.scheduled
          · rw [if_neg (fun hcon => hcon hls)]
            by_cases hsend : sendOk = true
            · rw [if_pos hsend]
              obtain ⟨row0, hrow0m⟩ := hrow1m
              have hr1 : (repoLookup so co s.repo m.id).2.store.rows
                  (sentRecord m now).id = some row0 := by
                show (repoLookup so co s.repo m.id).2.store.rows m.id = some row0
                exact hrow0m
              have hok := cachedUpdate_ok_of_row co hup hr1
              rw [hok]
              refine ⟨hqe, ?_, ?_⟩
              · show ∃ row, (CachedNotificationRepository.Update so co
                    (repoLookup so co s.repo m.id).2
                    (sentRecord m now)).2.store.rows id0 = some row
                rw [cachedUpdate_store]
                exact update_row_stays (by rw [repoLookup_store]; exact hrow)
              · show ((s.sends + 1 : Nat) : Int) + queuedBudget (s.queue.erase m) ≤ 5
                omega
            · rw [if_neg hsend]
              by_cases h5 : maxRetries ≤ (retriedRecord m).attempts
              · rw [if_pos h5]
                obtain ⟨row0, hrow0m⟩ := hrow1m
                have hr1 : (repoLookup so co s.repo m.id).2.store.rows
                    (failedRecord m).id = some row0 := by
                  show (repoLookup so co s.repo m.id).2.store.rows m.id = some row0
                  exact hrow0m
                have hok := cachedUpdate_ok_of_row co hup hr1
                rw [hok]
                refine ⟨hqe, ?_, ?_⟩
                · show ∃ row, (CachedNotificationRepository.Update so co
                      (repoLookup so co s.repo m.id).2
                      (failedRecord m)).2.store.rows id0 = some row
                  rw [cachedUpdate_store]
                  exact update_row_stays (by rw [repoLookup_store]; exact hrow)
                · show ((s.sends + 1 : Nat) : Int) + queuedBudget (s.queue.erase m) ≤ 5
                  omega
              · rw [if_neg h5, if_pos hpub]
                have h5' : m.attempts + 1 < 5 := by
                  have := not_le.mp h5
                  simpa [maxRetries, retriedRecord] using this
                refine ⟨?_, hrow1, ?_⟩
                · intro m2 hm2
                  rcases List.mem_append.mp hm2 with hh | hh
                  · exact hqe m2 hh
                  · have hm2e : m2 = retriedRecord m := by simpa using hh
                    subst hm2e
                    refine ⟨?_, ?_, ?_⟩
                    · show (0 : Int) ≤ m.attempts + 1
                      omega
                    · show m.attempts + 1 < 5
                      exact h5'
                    · show m.id = id0
                      exact hid
                · show ((s.sends + 1 : Nat) : Int) +
                    queuedBudget (s.queue.erase m ++ [retriedRecord m]) ≤ 5
                  have happ := queuedBudget_append (s.queue.erase m) [retriedRecord m]
                  have hsingle : queuedBudget [retriedRecord m] = 5 - (m.attempts + 1) := by
                    simp [queuedBudget, retriedRecord]
                  rw [happ, hsingle]
                  omega
          · rw [if_pos hls]
            refine ⟨hqe, hrow1, ?_⟩
            show (s.sends : Int) + queuedBudget (s.queue.erase m) ≤ 5
            omega

/-- C2 amended: across any lifetime in which every store `Update` and every
`PublishRetry` issued by the worker succeeds — so no `Nack(requeue=true)`
redelivery occurs, while cache failures and stale revalidation passes stay
in scope — `Transport.Send` is invoked at most `maxRetries = 5` times for a
notification, counting all retry republishes. -/
theorem bounded_attempts_reliable (n : Notification) (ctx : RepoCtx)
    (hrow : ∃ row, ctx.store.rows n.id = some row) (h1 : n.attempts = 0)
    (s' : WSysState)
    (h : Relation.ReflTransGen (StepC ReliableInfra) ⟨ctx, [n], 0⟩ s') :
    s'.sends ≤ 5 := by
  have hinv : SendBudgetInv n.id s' := by
    induction h with
    | refl =>
        refine ⟨?_, hrow, ?_⟩
        · intro m hm
          have hmn : m = n := by simpa using hm
          subst hmn
          refine ⟨by omega, by omega, rfl⟩
        · simp [queuedBudget, h1]
    | tail hab hbc ih => exact reliable_stepC_preserves_inv hbc ih
  obtain ⟨hq, -, hp⟩ := hinv
  have hb : 0 ≤ queuedBudget s'.queue :=
    queuedBudget_nonneg fun m hm => (hq m hm).2.1
  omega

/-- Witness for C2 amended: a reliable successful delivery run reaches the
`sent` state with one `Transport.Send`. -/
theorem bounded_attempts_reliable_witness :
    (⟨ctxDelivered, [], 1⟩ : WSysState).sends ≤ 5 :=
  bounded_attempts_reliable sampleNotification ctxWarm
    ⟨sampleNotification, rfl⟩ rfl ⟨ctxDelivered, [], 1⟩
    (Relation.ReflTransGen.single
      (StepC.process sampleNotification true storeOracleOk cacheOracleOk true
        2000000000 ⟨ctxWarm, [sampleNotification], 0⟩ (by simp) ⟨rfl, rfl⟩))

end DelayedNotifier
